import Mathlib

/-!
Shallow embedding of the `stepper` motor-control crate, covering the parts of
the code that the specification's claims are about:

* the generic firing-sequence driver (`src/drivers/generic.rs` legacy step
  path, `src/drivers/generic/generic_async.rs` async step path, and
  `set_step` from both generations of the module);
* the software motion controller (`src/motion_control/mod.rs`) together with
  the position-move future (`src/stepper/move_to.rs`);
* the step-pulse state machine (`src/stepper/step.rs`) and the DQ542MA
  driver's step actions (`src/drivers/dq542ma.rs`);
* the mode-set state machine (`src/stepper/set_step_mode.rs`).

Machine integers are modelled as `Nat` / `Int` with explicit `% 256` where the
source truncates to `u8`.  Fallible operations return their result together
with the post-state; Rust panics (`expect`) are modelled as an explicit
`panic` outcome.
-/

deriving instance DecidableEq for Except

namespace Stepper

/-- `Direction` enum (`src/lib.rs` re-export): rotation direction. -/
inductive Direction where
  | Forward
  | Backward
deriving DecidableEq

/-- `embedded_hal::digital::PinState`: level driven onto an output pin. -/
inductive PinState where
  | High
  | Low
deriving DecidableEq

/-- `OutputPinAction` (`src/traits.rs`): what a signaling operation does to one
pin slot.  Pins are identified by their index on the step bus. -/
inductive OutputPinAction where
  | Set (pin : Nat) (state : PinState)
  | None
deriving DecidableEq

/-- `GenericStepError` (`src/drivers/generic.rs`): errors of the generic
driver's step operation. -/
inductive GenericStepError where
  | MustCallEnableDirection
deriving DecidableEq

/-- State of the `Generic` sequencer driver (`src/drivers/generic.rs`):
firing table `steps` (u8 bit patterns), stored step index (`Option<u8>`),
and the software-tracked direction. The pins themselves carry no state the
driver reads; they are identified by bus index in the produced actions. -/
structure GenericState where
  steps : List Nat
  step : Option Nat
  direction : Option Direction
deriving DecidableEq

/-- `Generic::new`: fresh driver, step index and direction unset. -/
def Generic.new (steps : List Nat) : GenericState :=
  { steps := steps, step := Option.none, direction := Option.none }

/-- `SetDirection::dir` for `Generic`: records the direction in software and
returns `OutputPinAction::None` (no physical direction pin). -/
def Generic.dir (s : GenericState) (direction : Direction) :
    OutputPinAction × GenericState :=
  (OutputPinAction.None, { s with direction := some direction })

/-- The per-line pin actions built by `Generic::step_leading`'s loop: line
`i` is driven `High` exactly when bit `W - 1 - i` of the firing pattern is
set. -/
def Generic.firingActions (W firing : Nat) : List OutputPinAction :=
  (List.range W).map (fun i =>
    if (firing >>> (W - 1 - i)) % 2 = 1 then
      OutputPinAction.Set i PinState.High
    else
      OutputPinAction.Set i PinState.Low)

/-- Outcome of the legacy step entry points of the generic driver: pin
actions plus post-state, the `MustCallEnableDirection` error (state
unchanged, as the source returns before any mutation), or a panic from the
`expect("Within index")` table lookup. -/
inductive StepOutcome where
  | ok (actions : List OutputPinAction) (s : GenericState)
  | err (e : GenericStepError) (s : GenericState)
  | panic
deriving DecidableEq

/-- The index advance performed by `Generic::step_leading`
(`src/drivers/generic.rs` lines 186-204): plus or minus one depending on the
direction, with wraparound at both ends (`checked_add_signed` returns `None`
exactly when moving backward from 0, since the index read from a `u8` cannot
overflow on +1). -/
def Generic.nextIndex (direction : Direction) (current N : Nat) : Nat :=
  match direction with
  | Direction.Forward => if current + 1 ≥ N then 0 else current + 1
  | Direction.Backward => if current = 0 then N - 1 else current - 1

/-- `Generic::step_leading` (`src/drivers/generic.rs` lines 168-229), for bus
width `W`:  fails if no direction was ever set; looks up the firing pattern at
the current index (an unset index reads as 0, and an out-of-bounds lookup
panics); advances the index per `Generic.nextIndex` and stores it truncated
to `u8`; returns one `Set` action per bus line. -/
def Generic.stepLeading (W : Nat) (s : GenericState) : StepOutcome :=
  match s.direction with
  | Option.none => StepOutcome.err GenericStepError.MustCallEnableDirection s
  | some direction =>
    match s.steps.get? (s.step.getD 0) with
    | Option.none => StepOutcome.panic
    | some firing =>
      StepOutcome.ok (Generic.firingActions W firing)
        { s with
            step := some
              (Generic.nextIndex direction (s.step.getD 0) s.steps.length
                % 256) }

/-- `Generic::step_trailing` (`src/drivers/generic.rs` lines 231-252): one
`OutputPinAction::None` per bus line, no state change, infallible. -/
def Generic.stepTrailing (W : Nat) (s : GenericState) : StepOutcome :=
  StepOutcome.ok ((List.range W).map (fun _ => OutputPinAction.None)) s

/-- `Generic::set_step` (`src/drivers/generic.rs` lines 299-306 and
`src/drivers/generic/mod.rs` lines 277-284): accepts the new index exactly
when `step < NUM_STEPS as u8`; the cast truncates the table length to `u8`,
i.e. `length % 256`. On rejection the stored index is unchanged. -/
def Generic.set_step (s : GenericState) (step : Nat) :
    Except Unit Unit × GenericState :=
  if step < s.steps.length % 256 then
    (Except.ok (), { s with step := some step })
  else
    (Except.error (), s)

/-- Outcome of the async step path: the pin writes actually performed (in
program order, as `(pin index, level)` pairs) plus post-state, or a panic from
the `expect("Within index")` lookup. The function's error type is
`GenericStepError`, but no error is ever constructed on this path. -/
inductive AsyncStepOutcome where
  | ok (writes : List (Nat × PinState)) (s : GenericState)
  | panic
deriving DecidableEq

/-- The pin writes performed by `Generic::step_async_int`'s loop: bit `i` of
the firing pattern goes to pin `W - 1 - i`, for `i = 0, .., W - 1` in program
order. -/
def Generic.firingWrites (W firing : Nat) : List (Nat × PinState) :=
  (List.range W).map (fun i =>
    (W - 1 - i,
      if (firing >>> i) % 2 = 1 then PinState.High else PinState.Low))

/-- The async path's unconditional index increment
(`src/drivers/generic/generic_async.rs` lines 93-96): plus one, wrapping at
the table length. -/
def Generic.nextIndexAsync (current N : Nat) : Nat :=
  if current + 1 ≥ N then 0 else current + 1

/-- `Generic::step_async_int` (`src/drivers/generic/generic_async.rs` lines
68-101): looks up the firing pattern at the current index (an unset index
reads as 0, and an out-of-bounds lookup panics), performs the pin writes of
`Generic.firingWrites`, then advances the index per `Generic.nextIndexAsync`
— by plus one regardless of the stored direction, which it never reads — and
stores it truncated to `u8`. It performs no direction check and never
returns an error. -/
def Generic.stepAsyncInt (W : Nat) (s : GenericState) : AsyncStepOutcome :=
  match s.steps.get? (s.step.getD 0) with
  | Option.none => AsyncStepOutcome.panic
  | some firing =>
    AsyncStepOutcome.ok (Generic.firingWrites W firing)
      { s with
          step := some
            (Generic.nextIndexAsync (s.step.getD 0) s.steps.length % 256) }

/-- Iterated legacy stepping: `n` consecutive `step_leading` invocations,
`Option.none` when any of them fails or panics. -/
def Generic.stepLeadingN (W : Nat) : Nat → GenericState → Option GenericState
  | 0, s => some s
  | n + 1, s =>
    match Generic.stepLeading W s with
    | StepOutcome.ok _ s' => Generic.stepLeadingN W n s'
    | _ => Option.none

/-- Modelled from the spec: the external motion profile (the `ramp_maker`
crate, an external collaborator per the spec's scope) is "an opaque iterator
of delays" — `enter_position_mode(max_velocity, distance)` configures it "for
that absolute distance and requested peak velocity", after which it "produces
a sequence of per-step delay values and reports when the sequence is
exhausted". Modelled as the configured peak velocity plus the count of
remaining per-step delays; the delay values themselves are opaque and
omitted. -/
structure Profile where
  maxVelocity : Int
  remainingSteps : Nat
deriving DecidableEq

/-- Modelled from the spec: configuring the profile for a new position move. -/
def Profile.enterPositionMode (_p : Profile) (v : Int) (numSteps : Nat) :
    Profile :=
  { maxVelocity := v, remainingSteps := numSteps }

/-- Modelled from the spec: draw the next per-step delay from the profile;
`Option.none` once the sequence is exhausted. -/
def Profile.nextDelay (p : Profile) : Option Profile :=
  if p.remainingSteps = 0 then Option.none
  else some { p with remainingSteps := p.remainingSteps - 1 }

/-- Modelled from the spec: `motion_control/state.rs` is declared by
`src/motion_control/mod.rs` (`mod state`) but is not under `src/`; from its
uses in `mod.rs`, the controller is `Idle` (holding driver and timer) or in
motion. -/
inductive MCState where
  | Idle
  | Moving
deriving DecidableEq

/-- Modelled from the spec: `motion_control/error.rs` is not under `src/`;
per the error taxonomy, the motion controller distinguishes the recoverable
`Busy` error ("an operation was requested on software motion control while a
move was already in flight") from all other propagated errors. -/
inductive MCError where
  | Busy
  | Other
deriving DecidableEq

/-- State of `SoftwareMotionControl` (`src/motion_control/mod.rs` lines
45-60): controller state, the pending-motion flag `new_motion`, the attached
profile, the tracked position and direction. The wrapped driver is abstracted
to the count of step invocations issued to it, which is the only observation
the claims make of it. -/
structure SoftwareMotionControl where
  state : MCState
  new_motion : Option Direction
  profile : Profile
  current_step : Int
  current_direction : Direction
  driver_step_count : Nat
deriving DecidableEq

/-- `SoftwareMotionControl::new` (`src/motion_control/mod.rs` lines 93-110):
idle, no pending motion, position 0, direction initialized to `Forward`. -/
def SoftwareMotionControl.new (profile : Profile) : SoftwareMotionControl :=
  { state := MCState.Idle
    new_motion := Option.none
    profile := profile
    current_step := 0
    current_direction := Direction.Forward
    driver_step_count := 0 }

/-- `MotionControl::move_to_position` for `SoftwareMotionControl`
(`src/motion_control/mod.rs` lines 319-344): computes the signed distance
from the tracked position, configures the profile for its absolute value and
the requested velocity, records `Forward` when the distance is positive and
`Backward` otherwise in the pending-motion flag, and returns `Ok(())`.  The
source performs no check of the controller state. -/
def SoftwareMotionControl.move_to_position (smc : SoftwareMotionControl)
    (max_velocity : Int) (target_step : Int) :
    Except MCError Unit × SoftwareMotionControl :=
  let steps_from_here := target_step - smc.current_step
  let profile :=
    smc.profile.enterPositionMode max_velocity steps_from_here.natAbs
  let direction :=
    if steps_from_here > 0 then Direction.Forward else Direction.Backward
  (Except.ok (),
    { smc with profile := profile, new_motion := some direction })

/-- `MotionControl::reset_position` for `SoftwareMotionControl`
(`src/motion_control/mod.rs` lines 346-349): unconditionally overwrites the
tracked position and returns `Ok(())`. -/
def SoftwareMotionControl.reset_position (smc : SoftwareMotionControl)
    (step : Int) : Except MCError Unit × SoftwareMotionControl :=
  (Except.ok (), { smc with current_step := step })

/-- `SoftwareMotionControl::step` (`src/motion_control/mod.rs` lines
265-281): issues one step on the wrapped driver when idle, and fails with
`BusyError::Busy` otherwise. -/
def SoftwareMotionControl.step (smc : SoftwareMotionControl) :
    Except MCError Unit × SoftwareMotionControl :=
  match smc.state with
  | MCState.Idle =>
    (Except.ok (),
      { smc with driver_step_count := smc.driver_step_count + 1 })
  | _ => (Except.error MCError.Busy, smc)

/-- Signed step offset of a direction. -/
def Direction.offset : Direction → Int
  | Direction.Forward => 1
  | Direction.Backward => -1

/-- Modelled from the spec: `state::update` lives in the missing
`motion_control/state.rs` (its call is visible in `mod.rs` lines 351-373).
Per the spec, a pending motion first records the required direction and
enters the moving state; then "per-step execution consults the profile for
the delay before the next step, performs the step operation, and updates
current position by plus or minus 1 in the recorded direction; the move
completes when the profile reports no remaining steps". Returns whether
motion is still ongoing. -/
def SoftwareMotionControl.update (smc : SoftwareMotionControl) :
    Except MCError Bool × SoftwareMotionControl :=
  match smc.new_motion with
  | some direction =>
    (Except.ok true,
      { smc with
          new_motion := Option.none
          current_direction := direction
          state := MCState.Moving })
  | Option.none =>
    match smc.state with
    | MCState.Moving =>
      match smc.profile.nextDelay with
      | some profile =>
        (Except.ok true,
          { smc with
              profile := profile
              driver_step_count := smc.driver_step_count + 1
              current_step := smc.current_step + smc.current_direction.offset })
      | Option.none => (Except.ok false, { smc with state := MCState.Idle })
    | MCState.Idle => (Except.ok false, smc)

/-- `core::task::Poll`. -/
inductive Poll (α : Type) where
  | Ready (a : α)
  | Pending
deriving DecidableEq

/-- State of `MoveToFuture` (`src/stepper/move_to.rs` lines 108-115). -/
inductive MoveFutState where
  | Initial (max_velocity : Int) (target_step : Int)
  | Moving
  | Finished
deriving DecidableEq

/-- `MoveToFuture` (`src/stepper/move_to.rs`): the position-move future,
owning the motion controller. -/
structure MoveToFuture where
  driver : SoftwareMotionControl
  state : MoveFutState
deriving DecidableEq

/-- `MoveToFuture::new` (`src/stepper/move_to.rs` lines 32-44). -/
def MoveToFuture.new (driver : SoftwareMotionControl) (max_velocity : Int)
    (target_step : Int) : MoveToFuture :=
  { driver := driver, state := MoveFutState.Initial max_velocity target_step }

/-- `MoveToFuture::poll` (`src/stepper/move_to.rs` lines 76-106):
`Initial` issues `move_to_position` (propagating its error without entering
`Moving`) and reports `Pending`; `Moving` runs one `update`, reporting
`Pending` while motion is ongoing and `Ready(Ok)` once it is done; `Finished`
reports `Ready(Ok)` immediately. -/
def MoveToFuture.poll (f : MoveToFuture) :
    Poll (Except MCError Unit) × MoveToFuture :=
  match f.state with
  | MoveFutState.Initial max_velocity target_step =>
    match f.driver.move_to_position max_velocity target_step with
    | (Except.ok _, d) =>
      (Poll.Pending, { driver := d, state := MoveFutState.Moving })
    | (Except.error e, d) =>
      (Poll.Ready (Except.error e),
        { driver := d, state := MoveFutState.Initial max_velocity target_step })
  | MoveFutState.Moving =>
    match f.driver.update with
    | (Except.ok still_moving, d) =>
      if still_moving then
        (Poll.Pending, { driver := d, state := MoveFutState.Moving })
      else
        (Poll.Ready (Except.ok ()),
          { driver := d, state := MoveFutState.Finished })
    | (Except.error e, d) =>
      (Poll.Ready (Except.error e),
        { driver := d, state := MoveFutState.Moving })
  | MoveFutState.Finished => (Poll.Ready (Except.ok ()), f)

/-- Poll a `MoveToFuture` until it reports `Ready`, with fuel; returns the
final output and future, or `Option.none` if the fuel runs out. -/
def MoveToFuture.run : Nat → MoveToFuture →
    Option (Except MCError Unit × MoveToFuture)
  | 0, _ => Option.none
  | n + 1, f =>
    match f.poll with
    | (Poll.Ready r, f') => some (r, f')
    | (Poll.Pending, f') => MoveToFuture.run n f'

/-- Apply one pin action to a bus of pin levels (line `i` is entry `i`). -/
def applyAction (pins : List PinState) : OutputPinAction → List PinState
  | OutputPinAction.Set i state => pins.set i state
  | OutputPinAction.None => pins

/-- Apply a list of pin actions in program order. -/
def applyActions (pins : List PinState) (actions : List OutputPinAction) :
    List PinState :=
  actions.foldl applyAction pins

/-- State of `StepFuture` (`src/stepper/step.rs` lines 195-199). -/
inductive SFState where
  | Initial
  | PulseStarted
  | Finished
deriving DecidableEq

/-- `StepFuture` (`src/stepper/step.rs`): leading and trailing edge actions,
the pulse duration in nanoseconds, and the machine state. -/
structure StepFutureS where
  leading : List OutputPinAction
  duration : Nat
  trailing : List OutputPinAction
  state : SFState
deriving DecidableEq

/-- `StepFuture::new` (`src/stepper/step.rs` lines 74-87). -/
def StepFutureS.new (leading : List OutputPinAction) (duration : Nat)
    (trailing : List OutputPinAction) : StepFutureS :=
  { leading := leading, duration := duration, trailing := trailing,
    state := SFState.Initial }

/-- `StepFuture::poll` (`src/stepper/step.rs` lines 135-192), acting on the
bus pin levels; `delayReady` is whether the in-flight delay future for the
pulse duration has completed. `Initial` performs every leading action and
starts the delay, reporting `Pending`; `PulseStarted` waits for the delay and
then performs every trailing action, reporting `Ready(Ok)`; `Finished`
reports `Ready(Ok)` with no further pin activity. Pin errors are infallible
in this model. -/
def StepFutureS.poll (f : StepFutureS) (pins : List PinState)
    (delayReady : Bool) :
    Poll (Except Unit Unit) × StepFutureS × List PinState :=
  match f.state with
  | SFState.Initial =>
    (Poll.Pending, { f with state := SFState.PulseStarted },
      applyActions pins f.leading)
  | SFState.PulseStarted =>
    if delayReady then
      (Poll.Ready (Except.ok ()), { f with state := SFState.Finished },
        applyActions pins f.trailing)
    else
      (Poll.Pending, f, pins)
  | SFState.Finished => (Poll.Ready (Except.ok ()), f, pins)

/-- `DQ542MA::PULSE_LENGTH` (`src/drivers/dq542ma.rs` line 100), in ns. -/
def DQ542MA.PULSE_LENGTH : Nat := 5050

/-- `DQ542MA::step_leading` (`src/drivers/dq542ma.rs` lines 105-107): drive
the single step pin (bus line 0) `High`. -/
def DQ542MA.stepLeading : List OutputPinAction :=
  [OutputPinAction.Set 0 PinState.High]

/-- `DQ542MA::step_trailing` (`src/drivers/dq542ma.rs` lines 109-111): drive
the single step pin (bus line 0) `Low`. -/
def DQ542MA.stepTrailing : List OutputPinAction :=
  [OutputPinAction.Set 0 PinState.Low]

/-- State of `SetStepModeFuture` (`src/stepper/set_step_mode.rs` lines
10-15). -/
inductive SSMState where
  | Initial
  | ApplyingConfig
  | EnablingDriver
  | Finished
deriving DecidableEq

/-- Outcome of `fugit_timer::Timer::wait` as used by the mode-set machine:
elapsed, not yet elapsed (`nb::Error::WouldBlock`), or a genuine timer
fault (`nb::Error::Other`). -/
inductive NbWait where
  | ok
  | wouldBlock
  | err
deriving DecidableEq

/-- Calls the mode-set machine makes into the driver. -/
inductive DriverCall where
  | applyModeConfig
  | enableDriver
deriving DecidableEq

/-- `SetStepModeFuture::poll` (`src/stepper/set_step_mode.rs` lines 93-146),
with the driver's two operations modelled as recorded calls (infallible) and
the timer's `wait` outcome supplied as input; `start` always succeeds.
Returns the poll result, the successor state, and the driver calls made.
`Initial` calls `apply_mode_config`, starts the `SETUP_TIME` timer and
reports `Pending`.  In `ApplyingConfig`, once the timer has elapsed the
source calls `enable_driver`, starts the `HOLD_TIME` timer, moves to
`EnablingDriver` — and reports `Poll::Ready(Ok(()))` right there.  In
`EnablingDriver`, the elapsed timer yields `Ready(Ok)` and `Finished`.
`Finished` reports `Ready(Ok)`. -/
def SetStepModeFuture.poll (state : SSMState) (wait : NbWait) :
    Poll (Except Unit Unit) × SSMState × List DriverCall :=
  match state with
  | SSMState.Initial =>
    (Poll.Pending, SSMState.ApplyingConfig, [DriverCall.applyModeConfig])
  | SSMState.ApplyingConfig =>
    match wait with
    | NbWait.ok =>
      (Poll.Ready (Except.ok ()), SSMState.EnablingDriver,
        [DriverCall.enableDriver])
    | NbWait.wouldBlock => (Poll.Pending, SSMState.ApplyingConfig, [])
    | NbWait.err =>
      (Poll.Ready (Except.error ()), SSMState.Finished, [])
  | SSMState.EnablingDriver =>
    match wait with
    | NbWait.ok => (Poll.Ready (Except.ok ()), SSMState.Finished, [])
    | NbWait.wouldBlock => (Poll.Pending, SSMState.EnablingDriver, [])
    | NbWait.err =>
      (Poll.Ready (Except.error ()), SSMState.Finished, [])
  | SSMState.Finished => (Poll.Ready (Except.ok ()), SSMState.Finished, [])

/-- Reachable states of the generic sequencer driver: freshly constructed,
or reached through `dir`, `set_step` (which leaves the state unchanged on
rejection), or a completed step operation on either entry point. -/
inductive Reachable (W : Nat) : GenericState → Prop where
  | new (steps : List Nat) : Reachable W (Generic.new steps)
  | dir {s : GenericState} (d : Direction) :
      Reachable W s → Reachable W (Generic.dir s d).2
  | set_step {s : GenericState} (v : Nat) :
      Reachable W s → Reachable W (Generic.set_step s v).2
  | step_leading {s s' : GenericState} {a : List OutputPinAction} :
      Reachable W s → Generic.stepLeading W s = StepOutcome.ok a s' →
      Reachable W s'
  | step_leading_err {s s' : GenericState} {e : GenericStepError} :
      Reachable W s → Generic.stepLeading W s = StepOutcome.err e s' →
      Reachable W s'
  | step_trailing {s s' : GenericState} {a : List OutputPinAction} :
      Reachable W s → Generic.stepTrailing W s = StepOutcome.ok a s' →
      Reachable W s'
  | step_async {s s' : GenericState} {w : List (Nat × PinState)} :
      Reachable W s → Generic.stepAsyncInt W s = AsyncStepOutcome.ok w s' →
      Reachable W s'

/-- The advanced index stays within a nonempty table. -/
lemma nextIndex_lt (d : Direction) {current N : Nat} (h : current < N) :
    Generic.nextIndex d current N < N := by
  cases d <;> simp only [Generic.nextIndex] <;> split <;> omega

/-- The async path's advanced index stays within a nonempty table. -/
lemma nextIndexAsync_lt {current N : Nat} (h : current < N) :
    Generic.nextIndexAsync current N < N := by
  simp only [Generic.nextIndexAsync]; split <;> omega

/-- One forward `step_leading` from a valid index advances the stored index
to `(k + 1) % N`, provided the table is no longer than 256 entries (so the
`u8` truncation of the stored index is the identity). -/
lemma stepLeading_forward (W : Nat) (steps : List Nat) (k : Nat)
    (hk : k < steps.length) (hle : steps.length ≤ 256) :
    Generic.stepLeading W ⟨steps, some k, some Direction.Forward⟩ =
      StepOutcome.ok (Generic.firingActions W (steps.get ⟨k, hk⟩))
        ⟨steps, some ((k + 1) % steps.length), some Direction.Forward⟩ := by
  have hget : steps.get? k = some (steps.get ⟨k, hk⟩) := List.get?_eq_get hk
  have hidx : Generic.nextIndex Direction.Forward k steps.length % 256 =
      (k + 1) % steps.length := by
    simp only [Generic.nextIndex]
    by_cases h : k + 1 ≥ steps.length
    · have hEq : k + 1 = steps.length := by omega
      simp [h, hEq]
    · have h1 : k + 1 < steps.length := by omega
      have h2 : k + 1 < 256 := by omega
      simp [h, Nat.mod_eq_of_lt h1, Nat.mod_eq_of_lt h2]
  unfold Generic.stepLeading
  simp only [Option.getD_some, hget, hidx]

/-- `n` forward `step_leading` invocations from a valid index land on
`(k + n) % N`. -/
lemma stepLeadingN_forward (W : Nat) (steps : List Nat)
    (hle : steps.length ≤ 256) :
    ∀ (n k : Nat), k < steps.length →
      Generic.stepLeadingN W n ⟨steps, some k, some Direction.Forward⟩ =
        some ⟨steps, some ((k + n) % steps.length), some Direction.Forward⟩
  | 0, k, hk => by
    simp [Generic.stepLeadingN, Nat.mod_eq_of_lt hk]
  | n + 1, k, hk => by
    have hN : 0 < steps.length := by omega
    rw [Generic.stepLeadingN, stepLeading_forward W steps k hk hle]
    simp only []
    rw [stepLeadingN_forward W steps hle n ((k + 1) % steps.length)
      (Nat.mod_lt _ hN)]
    have hmod : ((k + 1) % steps.length + n) % steps.length =
        (k + (n + 1)) % steps.length := by
      have h1 : (k + 1) % steps.length + n ≡ (k + 1) + n [MOD steps.length] :=
        Nat.ModEq.add_right n (Nat.mod_modEq (k + 1) steps.length)
      calc ((k + 1) % steps.length + n) % steps.length
          = ((k + 1) + n) % steps.length := h1
        _ = (k + (n + 1)) % steps.length := by ring_nf
    rw [hmod]

/-- Every state reachable through the driver's operations keeps any stored
step index strictly below the firing-table length. -/
lemma reachable_step_lt {W : Nat} {s : GenericState} (h : Reachable W s) :
    ∀ v, s.step = some v → v < s.steps.length := by
  induction h with
  | new steps =>
    intro v hv
    simp [Generic.new] at hv
  | dir d hr ih =>
    intro v hv
    simp only [Generic.dir] at hv ⊢
    exact ih v hv
  | @set_step s₀ v' hr ih =>
    intro v hv
    by_cases hc : v' < s₀.steps.length % 256 <;>
      simp only [Generic.set_step, hc, if_pos, if_neg, not_false_iff] at hv ⊢
    · simp only [Option.some.injEq] at hv
      have hmod : s₀.steps.length % 256 ≤ s₀.steps.length :=
        Nat.mod_le _ _
      omega
    · exact ih v hv
  | @step_leading s₀ s₁ a hr heq ih =>
    intro v hv
    unfold Generic.stepLeading at heq
    cases hd : s₀.direction with
    | none => rw [hd] at heq; exact absurd heq (by simp)
    | some d =>
      rw [hd] at heq
      cases hget : s₀.steps.get? (s₀.step.getD 0) with
      | none => rw [hget] at heq; exact absurd heq (by simp)
      | some firing =>
        rw [hget] at heq
        have hcur : s₀.step.getD 0 < s₀.steps.length := by
          rcases List.get?_eq_some.mp hget with ⟨hlt, -⟩
          exact hlt
        cases heq
        simp only [Option.some.injEq] at hv
        have hnext := nextIndex_lt d hcur
        have hmod : Generic.nextIndex d (s₀.step.getD 0) s₀.steps.length
            % 256 ≤ Generic.nextIndex d (s₀.step.getD 0) s₀.steps.length :=
          Nat.mod_le _ _
        simp only []
        omega
  | @step_leading_err s₀ s₁ e hr heq ih =>
    intro v hv
    unfold Generic.stepLeading at heq
    cases hd : s₀.direction with
    | none =>
      rw [hd] at heq
      cases heq
      exact ih v hv
    | some d =>
      rw [hd] at heq
      cases hget : s₀.steps.get? (s₀.step.getD 0) with
      | none => rw [hget] at heq; exact absurd heq (by simp)
      | some firing => rw [hget] at heq; exact absurd heq (by simp)
  | @step_trailing s₀ s₁ a hr heq ih =>
    intro v hv
    unfold Generic.stepTrailing at heq
    cases heq
    exact ih v hv
  | @step_async s₀ s₁ w hr heq ih =>
    intro v hv
    unfold Generic.stepAsyncInt at heq
    cases hget : s₀.steps.get? (s₀.step.getD 0) with
    | none => rw [hget] at heq; exact absurd heq (by simp)
    | some firing =>
      rw [hget] at heq
      have hcur : s₀.step.getD 0 < s₀.steps.length := by
        rcases List.get?_eq_some.mp hget with ⟨hlt, -⟩
        exact hlt
      cases heq
      simp only [Option.some.injEq] at hv
      have hnext := nextIndexAsync_lt hcur
      have hmod : Generic.nextIndexAsync (s₀.step.getD 0) s₀.steps.length
          % 256 ≤ Generic.nextIndexAsync (s₀.step.getD 0) s₀.steps.length :=
        Nat.mod_le _ _
      simp only []
      omega

/-- C1: stepping the generic sequencer before any direction has been set.
On the legacy `step_leading` path this fails with `MustCallEnableDirection`
and leaves the stored step index unchanged, exactly as claimed.  On the
async `step_async` path, however, the same state (firing table `[0b00, 0b01]`,
one bus line, direction never set) is *not* rejected: the step is performed
(line 0 driven per the firing pattern) and the stored index advances to 1 —
the claim's "every step entry point" fails on the async path. -/
theorem c1_step_before_direction :
    (Generic.stepLeading 1 (Generic.new [0, 1]) =
      StepOutcome.err GenericStepError.MustCallEnableDirection
        (Generic.new [0, 1]))
    ∧ (Generic.stepAsyncInt 1 (Generic.new [0, 1]) =
      AsyncStepOutcome.ok [(0, PinState.Low)]
        ⟨[0, 1], some 1, Option.none⟩) := by
  exact ⟨rfl, rfl⟩

/-- C2 (counterexample): `move_to_position` while a move is in flight.  After
a first `move_to_position` towards step 10 the pending-motion flag is set
(the move has been requested and not completed), yet a second call is not
rejected with the busy error: it returns `Ok`, overwrites the recorded
direction (`Forward` becomes `Backward`) and reconfigures the profile for
the new target.  The same holds once the motion has actually started (the
controller is in the moving state). -/
theorem c2_move_while_busy_not_rejected :
    (((SoftwareMotionControl.new ⟨1, 0⟩).move_to_position 1 10).2.new_motion
      = some Direction.Forward)
    ∧ ((((SoftwareMotionControl.new ⟨1, 0⟩).move_to_position 1
          10).2.move_to_position 1 (-3)).1 = Except.ok ())
    ∧ ((((SoftwareMotionControl.new ⟨1, 0⟩).move_to_position 1
          10).2.move_to_position 1 (-3)).2.new_motion
        = some Direction.Backward)
    ∧ ((((SoftwareMotionControl.new ⟨1, 0⟩).move_to_position 1
          10).2.move_to_position 1 (-3)).2.profile = ⟨1, 3⟩)
    ∧ ((((SoftwareMotionControl.new ⟨1, 0⟩).move_to_position 1
          10).2.update).2.state = MCState.Moving)
    ∧ ((((((SoftwareMotionControl.new ⟨1, 0⟩).move_to_position 1
          10).2.update).2.move_to_position 1 99).1) = Except.ok ()) := by
  decide

/-- C2 (amended): `move_to_position` performs no busy check at all — in every
controller state it returns `Ok`, records the direction of the signed
distance in the pending-motion flag, and reconfigures the profile; the
busy rejection exists only on the direct driver-access operations, e.g.
`SoftwareMotionControl::step` fails with `Busy` while a motion is ongoing. -/
theorem c2_amended_no_busy_check (smc : SoftwareMotionControl) (v t : Int) :
    (smc.move_to_position v t).1 = Except.ok ()
    ∧ (smc.move_to_position v t).2.new_motion =
        some (if t - smc.current_step > 0 then Direction.Forward
          else Direction.Backward)
    ∧ (smc.move_to_position v t).2.profile =
        smc.profile.enterPositionMode v (t - smc.current_step).natAbs
    ∧ (smc.state = MCState.Moving →
        smc.step = (Except.error MCError.Busy, smc)) := by
  refine ⟨rfl, rfl, rfl, fun h => ?_⟩
  simp [SoftwareMotionControl.step, h]

/-- C2 (witness for the amended theorem), at a fresh controller and at one in
the moving state. -/
theorem c2_amended_no_busy_check_witness :
    ((SoftwareMotionControl.new ⟨1, 0⟩).move_to_position 1 5).1 = Except.ok ()
    ∧ ({ SoftwareMotionControl.new ⟨1, 0⟩ with
          state := MCState.Moving } : SoftwareMotionControl).step
        = (Except.error MCError.Busy,
          { SoftwareMotionControl.new ⟨1, 0⟩ with state := MCState.Moving }) :=
  ⟨(c2_amended_no_busy_check (SoftwareMotionControl.new ⟨1, 0⟩) 1 5).1,
    (c2_amended_no_busy_check
      { SoftwareMotionControl.new ⟨1, 0⟩ with state := MCState.Moving }
      1 5).2.2.2 rfl⟩

/-- C3: a software motion move from step 0 to step 10.  Polling the
position-move future to completion performs exactly 10 step invocations on
the wrapped driver, finishes with `Ok`, and leaves `current_step = 10` and
`current_direction = Forward`.  (The per-step loop of the missing
`motion_control/state.rs` and the externally supplied profile are modelled
from the spec; `move_to_position` and `MoveToFuture::poll` are embedded from
the source.) -/
theorem c3_move_zero_to_ten :
    MoveToFuture.run 20
        (MoveToFuture.new (SoftwareMotionControl.new ⟨1, 0⟩) 1 10) =
      some (Except.ok (),
        ⟨⟨MCState.Idle, Option.none, ⟨1, 0⟩, 10, Direction.Forward, 10⟩,
          MoveFutState.Finished⟩)
    ∧ (MoveToFuture.run 20
        (MoveToFuture.new (SoftwareMotionControl.new ⟨1, 0⟩) 1 10)).map
          (fun r => (r.2.driver.driver_step_count, r.2.driver.current_step,
            r.2.driver.current_direction))
        = some (10, 10, Direction.Forward) := by
  decide

/-- C4 (counterexample): the generic sequencer supports `Step`, but one of
its steps is not a rising edge followed by a falling edge on every bus line:
with firing table `[0b1]` and one line, the leading actions drive the line
`High`, the trailing "actions" are all `None` (no falling edge), and running
the full step-pulse state machine from a `Low` line leaves the line `High` —
the post-step pin state differs from the pre-step state. -/
theorem c4_generic_step_not_a_pulse :
    (Generic.stepLeading 1 ⟨[1], Option.none, some Direction.Forward⟩ =
      StepOutcome.ok [OutputPinAction.Set 0 PinState.High]
        ⟨[1], some 0, some Direction.Forward⟩)
    ∧ (Generic.stepTrailing 1 ⟨[1], some 0, some Direction.Forward⟩ =
      StepOutcome.ok [OutputPinAction.None]
        ⟨[1], some 0, some Direction.Forward⟩)
    ∧ ((StepFutureS.new [OutputPinAction.Set 0 PinState.High] 0
          [OutputPinAction.None]).poll [PinState.Low] false =
        (Poll.Pending,
          ⟨[OutputPinAction.Set 0 PinState.High], 0, [OutputPinAction.None],
            SFState.PulseStarted⟩, [PinState.High]))
    ∧ ((⟨[OutputPinAction.Set 0 PinState.High], 0, [OutputPinAction.None],
          SFState.PulseStarted⟩ : StepFutureS).poll [PinState.High] true =
        (Poll.Ready (Except.ok ()),
          ⟨[OutputPinAction.Set 0 PinState.High], 0, [OutputPinAction.None],
            SFState.Finished⟩, [PinState.High]))
    ∧ [PinState.High] ≠ [PinState.Low] := by
  decide

/-- C4 (amended): for a STEP/DIR driver (DQ542MA) with its step pin starting
`Low`, one run of the step-pulse machine issues exactly the one rising-edge
action on the bus line in `Initial`, performs no pin action while the
`PULSE_LENGTH` delay has not elapsed, and issues exactly the one
falling-edge action once it has, returning the bus to its pre-step state.
The generic sequencer deliberately deviates (see the counterexample): its
leading actions drive the firing pattern and its trailing actions are
no-ops, so the pattern persists after the step. -/
theorem c4_amended_dq542ma_pulse (b : Bool) :
    ((StepFutureS.new DQ542MA.stepLeading DQ542MA.PULSE_LENGTH
        DQ542MA.stepTrailing).poll [PinState.Low] b =
      (Poll.Pending,
        ⟨DQ542MA.stepLeading, DQ542MA.PULSE_LENGTH, DQ542MA.stepTrailing,
          SFState.PulseStarted⟩, [PinState.High]))
    ∧ ((⟨DQ542MA.stepLeading, DQ542MA.PULSE_LENGTH, DQ542MA.stepTrailing,
          SFState.PulseStarted⟩ : StepFutureS).poll [PinState.High] false =
      (Poll.Pending,
        ⟨DQ542MA.stepLeading, DQ542MA.PULSE_LENGTH, DQ542MA.stepTrailing,
          SFState.PulseStarted⟩, [PinState.High]))
    ∧ ((⟨DQ542MA.stepLeading, DQ542MA.PULSE_LENGTH, DQ542MA.stepTrailing,
          SFState.PulseStarted⟩ : StepFutureS).poll [PinState.High] true =
      (Poll.Ready (Except.ok ()),
        ⟨DQ542MA.stepLeading, DQ542MA.PULSE_LENGTH, DQ542MA.stepTrailing,
          SFState.Finished⟩, [PinState.Low])) := by
  exact ⟨rfl, rfl, rfl⟩

set_option maxRecDepth 4000 in
/-- C5 (counterexample): the cyclic-index claim fails as stated.  On the
async step path, with a 3-entry table, direction `Backward` and index 0, the
step advances the index to 1, not to `N - 1 = 2` (the async path always
increments).  On the legacy path with a 300-entry table, stepping `Backward`
from index 0 stores `299 % 256 = 43`, not `N - 1 = 299` (the index is stored
in a `u8`). -/
theorem c5_cyclic_counterexample :
    (Generic.stepAsyncInt 2 ⟨[1, 2, 4], some 0, some Direction.Backward⟩ =
      AsyncStepOutcome.ok [(1, PinState.High), (0, PinState.Low)]
        ⟨[1, 2, 4], some 1, some Direction.Backward⟩)
    ∧ (1 : Nat) ≠ ([1, 2, 4] : List Nat).length - 1
    ∧ (Generic.stepLeading 1
        ⟨List.replicate 300 0, some 0, some Direction.Backward⟩ =
      StepOutcome.ok [OutputPinAction.Set 0 PinState.Low]
        ⟨List.replicate 300 0, some 43, some Direction.Backward⟩)
    ∧ (43 : Nat) ≠ (List.replicate 300 (0 : Nat)).length - 1 := by
  decide

/-- C5 (amended): the cyclic invariant holds on the legacy `step_leading`
path for firing tables of at most 256 entries (so the `u8` storage of the
index is faithful): stepping `Forward` `N` times from any valid index
returns the index to its starting value, and stepping `Backward` at index 0
wraps to `N - 1`.  The async step path is excluded: it advances the index
forward regardless of direction. -/
theorem c5_amended_cyclic :
    (∀ (W k : Nat) (steps : List Nat), k < steps.length →
      steps.length ≤ 256 →
      Generic.stepLeadingN W steps.length
          ⟨steps, some k, some Direction.Forward⟩ =
        some ⟨steps, some k, some Direction.Forward⟩)
    ∧ (∀ (W : Nat) (steps : List Nat), 0 < steps.length →
      steps.length ≤ 256 →
      ∃ a, Generic.stepLeading W ⟨steps, some 0, some Direction.Backward⟩ =
        StepOutcome.ok a
          ⟨steps, some (steps.length - 1), some Direction.Backward⟩) := by
  constructor
  · intro W k steps hk hle
    rw [stepLeadingN_forward W steps hle steps.length k hk]
    rw [Nat.add_mod_right, Nat.mod_eq_of_lt hk]
  · intro W steps hN hle
    refine ⟨Generic.firingActions W (steps.get ⟨0, hN⟩), ?_⟩
    have hget : steps.get? 0 = some (steps.get ⟨0, hN⟩) := List.get?_eq_get hN
    have hidx : Generic.nextIndex Direction.Backward 0 steps.length % 256 =
        steps.length - 1 := by
      have h0 : Generic.nextIndex Direction.Backward 0 steps.length =
          steps.length - 1 := by
        simp [Generic.nextIndex]
      rw [h0]
      exact Nat.mod_eq_of_lt (by omega)
    unfold Generic.stepLeading
    simp only [Option.getD_some, hget, hidx]

/-- C5 (witness for the amended theorem): a 3-entry table, forward cycle
from index 1 and backward wrap from index 0. -/
theorem c5_amended_cyclic_witness :
    Generic.stepLeadingN 1 3 ⟨[5, 6, 7], some 1, some Direction.Forward⟩ =
      some ⟨[5, 6, 7], some 1, some Direction.Forward⟩
    ∧ ∃ a, Generic.stepLeading 1 ⟨[5, 6, 7], some 0, some Direction.Backward⟩
        = StepOutcome.ok a ⟨[5, 6, 7], some 2, some Direction.Backward⟩ :=
  ⟨c5_amended_cyclic.1 1 1 [5, 6, 7] (by decide) (by decide),
    c5_amended_cyclic.2 1 [5, 6, 7] (by decide) (by decide)⟩

/-- C6: the backward two-entry scenario, on both step entry points.  With
firing table `[0b01, 0b10]`, two lines, direction `Backward` and the index
unset (read as 0): the first step drives line 0 `Low` and line 1 `High` and
sets the index to 1 (= table length - 1); the second step drives line 0
`High` and line 1 `Low` and wraps the index back to 0. -/
theorem c6_backward_two_entry_scenario :
    (Generic.stepLeading 2 ⟨[1, 2], Option.none, some Direction.Backward⟩ =
      StepOutcome.ok
        [OutputPinAction.Set 0 PinState.Low, OutputPinAction.Set 1 PinState.High]
        ⟨[1, 2], some 1, some Direction.Backward⟩)
    ∧ (Generic.stepLeading 2 ⟨[1, 2], some 1, some Direction.Backward⟩ =
      StepOutcome.ok
        [OutputPinAction.Set 0 PinState.High, OutputPinAction.Set 1 PinState.Low]
        ⟨[1, 2], some 0, some Direction.Backward⟩)
    ∧ (Generic.stepAsyncInt 2 ⟨[1, 2], Option.none, some Direction.Backward⟩ =
      AsyncStepOutcome.ok [(1, PinState.High), (0, PinState.Low)]
        ⟨[1, 2], some 1, some Direction.Backward⟩)
    ∧ (Generic.stepAsyncInt 2 ⟨[1, 2], some 1, some Direction.Backward⟩ =
      AsyncStepOutcome.ok [(1, PinState.Low), (0, PinState.High)]
        ⟨[1, 2], some 0, some Direction.Backward⟩) := by
  decide

/-- C7: the mode-set machine's poll at the end of the `SETUP_TIME` phase.
When the setup timer has elapsed, the source calls `enable_driver`, starts
the `HOLD_TIME` timer, moves to the `EnablingDriver` state — and reports
`Poll::Ready(Ok(()))` on that very poll, i.e. completion is reported while
the `HOLD_TIME` phase has only just begun, contradicting the claim (and the
poll method's own documentation) that every poll before the hold time has
elapsed reports not-yet-complete. -/
theorem c7_ready_reported_before_hold_time :
    SetStepModeFuture.poll SSMState.ApplyingConfig NbWait.ok =
      (Poll.Ready (Except.ok ()), SSMState.EnablingDriver,
        [DriverCall.enableDriver])
    ∧ SSMState.EnablingDriver ≠ SSMState.Finished
    ∧ SetStepModeFuture.poll SSMState.Initial NbWait.wouldBlock =
      (Poll.Pending, SSMState.ApplyingConfig,
        [DriverCall.applyModeConfig]) := by
  decide

/-- C8 (counterexample): `reset_position` during an active move.  With a
motion in flight (the controller is in the moving state after a
`move_to_position` and one update), `reset_position(5)` is not rejected: it
returns `Ok` and overwrites the tracked position with 5. -/
theorem c8_reset_while_moving_not_rejected :
    ((((SoftwareMotionControl.new ⟨1, 0⟩).move_to_position 1
        10).2.update).2.state = MCState.Moving)
    ∧ (((((SoftwareMotionControl.new ⟨1, 0⟩).move_to_position 1
        10).2.update).2.reset_position 5).1 = Except.ok ())
    ∧ (((((SoftwareMotionControl.new ⟨1, 0⟩).move_to_position 1
        10).2.update).2.reset_position 5).2.current_step = 5) := by
  decide

/-- C8 (amended): `reset_position` overwrites the tracked current position
and succeeds unconditionally — it touches no other field (so no pin action
and no step is issued), and in particular it is *not* rejected while a
motion is in flight. -/
theorem c8_amended_reset_unconditional (smc : SoftwareMotionControl)
    (v : Int) :
    smc.reset_position v = (Except.ok (), { smc with current_step := v }) :=
  rfl

/-- C9 (counterexample): with an empty firing table the invariant fails.
The state with table `[]`, index unset and direction set is reachable
(construction followed by `dir`), and both step entry points hit the
`expect("Within index")` panic: the lookup index 0 is not within the bounds
of the empty table. -/
theorem c9_empty_table_panics :
    Reachable 1 ⟨[], Option.none, some Direction.Forward⟩
    ∧ Generic.stepLeading 1 ⟨[], Option.none, some Direction.Forward⟩ =
        StepOutcome.panic
    ∧ Generic.stepAsyncInt 1 ⟨[], Option.none, some Direction.Forward⟩ =
        AsyncStepOutcome.panic := by
  refine ⟨?_, rfl, rfl⟩
  exact Reachable.dir Direction.Forward (Reachable.new [])

/-- C9 (amended): provided the firing table is nonempty, every reachable
state of the generic driver keeps the lookup index within the table's
bounds, so neither step entry point can hit its panic branch. -/
theorem c9_amended_no_panic (W : Nat) (s : GenericState)
    (h : Reachable W s) (hN : 0 < s.steps.length) :
    s.step.getD 0 < s.steps.length
    ∧ Generic.stepLeading W s ≠ StepOutcome.panic
    ∧ Generic.stepAsyncInt W s ≠ AsyncStepOutcome.panic := by
  have hidx : s.step.getD 0 < s.steps.length := by
    cases hs : s.step with
    | none => simpa using hN
    | some v => simpa using reachable_step_lt h v hs
  refine ⟨hidx, ?_, ?_⟩
  · unfold Generic.stepLeading
    cases hd : s.direction with
    | none => simp
    | some d =>
      rw [List.get?_eq_get hidx]
      simp
  · unfold Generic.stepAsyncInt
    rw [List.get?_eq_get hidx]
    simp

/-- C9 (witness for the amended theorem): a freshly constructed driver with
a singleton table. -/
theorem c9_amended_no_panic_witness :
    (Generic.new [3]).step.getD 0 < (Generic.new [3]).steps.length
    ∧ Generic.stepLeading 1 (Generic.new [3]) ≠ StepOutcome.panic
    ∧ Generic.stepAsyncInt 1 (Generic.new [3]) ≠ AsyncStepOutcome.panic :=
  c9_amended_no_panic 1 (Generic.new [3]) (Reachable.new [3]) (by decide)

set_option maxRecDepth 4000 in
/-- C10 (counterexample): with a 256-entry firing table, `set_step(0)` is
rejected even though `0 < NUM_STEPS`, because the source compares against
`NUM_STEPS as u8 = 256 % 256 = 0`. -/
theorem c10_set_step_truncation :
    ((Generic.set_step
        ⟨List.replicate 256 0, Option.none, Option.none⟩ 0).1
      = Except.error ())
    ∧ (0 : Nat) < (List.replicate 256 (0 : Nat)).length := by
  decide

/-- C10 (amended): `set_step(s)` succeeds and stores `Some(s)` exactly when
`s` is below the table length truncated to `u8` (`NUM_STEPS % 256`), and
fails leaving the stored index unchanged otherwise; for tables of at most
255 entries this is exactly the claimed condition `s < NUM_STEPS`. -/
theorem c10_amended_set_step (s : GenericState) (v : Nat) :
    (v < s.steps.length % 256 →
      Generic.set_step s v = (Except.ok (), { s with step := some v }))
    ∧ (¬ v < s.steps.length % 256 →
      Generic.set_step s v = (Except.error (), s))
    ∧ (s.steps.length ≤ 255 →
      ((Generic.set_step s v).1 = Except.ok () ↔ v < s.steps.length)) := by
  refine ⟨fun h => ?_, fun h => ?_, fun hle => ?_⟩
  · simp [Generic.set_step, h]
  · simp [Generic.set_step, h]
  · have hmod : s.steps.length % 256 = s.steps.length :=
      Nat.mod_eq_of_lt (by omega)
    by_cases hv : v < s.steps.length
    · simp [Generic.set_step, hmod, hv]
    · simp [Generic.set_step, hmod, hv]

/-- C10 (witness for the amended theorem): a two-entry table, one accepted
and one rejected index. -/
theorem c10_amended_set_step_witness :
    Generic.set_step (Generic.new [7, 7]) 1 =
      (Except.ok (), { Generic.new [7, 7] with step := some 1 })
    ∧ Generic.set_step (Generic.new [7, 7]) 2 =
      (Except.error (), Generic.new [7, 7])
    ∧ ((Generic.set_step (Generic.new [7, 7]) 1).1 = Except.ok () ↔
        1 < (Generic.new [7, 7]).steps.length) :=
  ⟨(c10_amended_set_step (Generic.new [7, 7]) 1).1 (by decide),
    (c10_amended_set_step (Generic.new [7, 7]) 2).2.1 (by decide),
    (c10_amended_set_step (Generic.new [7, 7]) 1).2.2 (by decide)⟩

end Stepper
